import Mathlib

/-!
Verification of the trivia-question service core
(`backend/flaskr/__init__.py`): question store, pagination, substring
search, category filtering, quiz selection, and the request/response
mapping of each endpoint handler.

The handlers are embedded shallowly: the SQLAlchemy-backed store is a
`Store` value holding the question and category rows; each Flask view
function becomes a Lean function from the store (and the parsed request
data) to an `Outcome`, where `Outcome.notFound` is `abort(404)` and
`Outcome.unprocessable` is `abort(422)`.  `models.py` is not part of the
sources; where its behaviour matters (record insertion) the definition is
modelled from the spec and says so in its doc comment.
-/

/-- A stored question row.  In the database the `category` column holds
the textual form of the category id (the handlers compare it with
`str(category_id)`), so it is a `String` here. -/
structure Question where
  id : Nat
  question : String
  answer : String
  category : String
  difficulty : Int
deriving DecidableEq, Repr

/-- A stored category row. -/
structure Category where
  id : Nat
  type : String
deriving DecidableEq, Repr

/-- The database state seen by the handlers: the two tables, rows in
storage (insertion) order. -/
structure Store where
  questions : List Question
  categories : List Category
deriving DecidableEq, Repr

/-- Outcome of a request: a `200`/`201` success carrying the JSON payload,
or one of the two aborts the handlers use (`abort(404)`, `abort(422)`). -/
inductive Outcome (α : Type) where
  | ok : α → Outcome α
  | notFound : Outcome α
  | unprocessable : Outcome α
deriving DecidableEq, Repr

/-- A JSON payload value as the handlers receive it: the fields of the
dynamic request dictionaries are strings or integers. -/
inductive Value where
  | str : String → Value
  | int : Int → Value
deriving DecidableEq, Repr

/-- Python truthiness of a payload value (`if search:`,
`all([...])`): the empty string and `0` are falsy. -/
def Value.truthy : Value → Bool
  | .str s => s ≠ ""
  | .int n => n ≠ 0

/-- Decimal digits of `n`, most significant first, computed with
explicit fuel so the function is structurally recursive (the fuel `n`
always suffices: a number has at most `n` divisions by ten). -/
def natDigitsGo : Nat → Nat → List Char
  | 0, n => [Nat.digitChar n]
  | fuel + 1, n =>
    if n < 10 then [Nat.digitChar n]
    else natDigitsGo fuel (n / 10) ++ [Nat.digitChar (n % 10)]

/-- Decimal rendering of a natural number, as Python's `str`. -/
def natRepr (n : Nat) : String :=
  ⟨natDigitsGo n n⟩

/-- Python `str(v)` on a payload value: strings unchanged, integers in
decimal with a leading minus sign when negative. -/
def Value.pyStr : Value → String
  | .str s => s
  | .int n => if n < 0 then "-" ++ natRepr (-n).toNat else natRepr n.toNat

/-- Truthiness of `payload.get(key, None)`: a missing key gives `None`,
which is falsy. -/
def optTruthy : Option Value → Bool
  | none => false
  | some v => v.truthy

/-- Resolution of one Python slice endpoint against a list of length
`len` (step `1`): negative indices count from the end and are clamped at
`0`; non-negative ones are clamped at `len`. -/
def pyIdx (len : Int) (i : Int) : Nat :=
  if i < 0 then (len + i).toNat else min i.toNat len.toNat

/-- Python list slicing `l[start:stop]` (step `1`), as used by
`formatted_questions[(page-1)*per_page : page*per_page]`. -/
def pySlice {α : Type} (l : List α) (start stop : Int) : List α :=
  (l.take (pyIdx l.length stop)).drop (pyIdx l.length start)

/-- Insert a question into a list kept ascending by `id`. -/
def insertById (q : Question) : List Question → List Question
  | [] => [q]
  | x :: xs => if q.id ≤ x.id then q :: x :: xs else x :: insertById q xs

/-- The query `Question.query.order_by(Question.id).all()`: the stored
questions sorted by id ascending (insertion sort). -/
def sortByIdAsc : List Question → List Question
  | [] => []
  | x :: xs => insertById x (sortByIdAsc xs)

/-- The page size `QUESTIONS_PER_PAGE` from the source. -/
def QUESTIONS_PER_PAGE : Nat := 10

/-- The categories dictionary `{cat.id: cat.type for cat in
Category.query.all()}` included in list responses. -/
def categoriesDict (s : Store) : List (Nat × String) :=
  s.categories.map (fun c => (c.id, c.type))

/-- Payload of a successful `GET /questions` response. -/
structure ListResponse where
  questions : List Question
  totalQuestions : Nat
  categories : List (Nat × String)
  currentCategory : Option String
deriving DecidableEq, Repr

/-- The `GET /questions` handler `get_questions`: sort all questions by
id, take the Python slice `[(page-1)*10 : page*10]`, abort `404` when the
slice is empty, otherwise answer with the page, the total stored count,
and the category dictionary. -/
def get_questions (s : Store) (page : Int) : Outcome ListResponse :=
  let formatted := sortByIdAsc s.questions
  let paginated :=
    pySlice formatted ((page - 1) * QUESTIONS_PER_PAGE) (page * QUESTIONS_PER_PAGE)
  if paginated = [] then .notFound
  else .ok ⟨paginated, formatted.length, categoriesDict s, none⟩

/-- SQL `LIKE` pattern matching on character lists, case-insensitive
(`ILIKE`): `%` matches any sequence, `_` matches any single character,
every other pattern character matches case-insensitively.  This is the
semantics of `Question.question.ilike(...)`; the query supplies no
`ESCAPE` clause. -/
def likeMatch : List Char → List Char → Bool
  | [], s => s.isEmpty
  | p :: ps, s =>
    if p = '%' then
      likeMatch ps s ||
        (match s with
         | [] => false
         | _ :: cs => likeMatch (p :: ps) cs)
    else
      match s with
      | [] => false
      | c :: cs =>
        if p = '_' then likeMatch ps cs
        else (p.toLower = c.toLower) && likeMatch ps cs
termination_by p s => (p.length, s.length)

/-- The pattern `f"%{search}%"` built by `add_or_search_question`. -/
def ilikePattern (term : String) : List Char :=
  '%' :: (term.toList ++ ['%'])

/-- Payload of a successful search (or by-category) response. -/
structure SearchResponse where
  questions : List Question
  totalQuestions : Nat
  currentCategory : Option String
deriving DecidableEq, Repr

/-- The search branch of `add_or_search_question`:
`Question.query.filter(Question.question.ilike(f"%{search}%")).all()`,
`abort(404)` when no rows match, otherwise the matches with their
count. -/
def search_questions (s : Store) (term : String) : Outcome SearchResponse :=
  let hits := s.questions.filter
    (fun q => likeMatch (ilikePattern term) q.question.toList)
  if hits = [] then .notFound
  else .ok ⟨hits, hits.length, none⟩

/-- Parsed body of a `POST /questions` request: each field is absent or a
payload value (`payload.get(key)`). -/
structure PostPayload where
  searchTerm : Option Value
  question : Option Value
  answer : Option Value
  difficulty : Option Value
  category : Option Value
deriving DecidableEq, Repr

/-- The `category` value as stored in the question row's string column
(the frontend sends an integer id; the column holds its textual form).
Modelled from the spec: `models.py` is absent from the sources; the spec
states category ids "are stored as their textual form". -/
def storedCategory (v : Value) : String := v.pyStr

/-- Next question id on insertion.  Modelled from the spec: `models.py`
(the `Question.insert` implementation) is absent from the sources; the
spec states insert "assigns the next unique id". -/
def nextId (s : Store) : Nat :=
  (s.questions.map Question.id).foldr max 0 + 1

/-- The question row built by the create branch of
`add_or_search_question` from the four payload values (`id` assigned by
the store on insert; text fields in their payload form, the category in
its stored textual form). -/
def insertedQuestion (s : Store) (qv av dv cv : Value) : Question :=
  { id := nextId s
    question := qv.pyStr
    answer := av.pyStr
    category := storedCategory cv
    difficulty := match dv with | .int n => n | .str _ => 0 }

/-- Result payload of `POST /questions`: either the search response or
the bare `{'success': True}` of a creation (`201`). -/
inductive PostResponse where
  | searchResult : SearchResponse → PostResponse
  | created : PostResponse
deriving DecidableEq, Repr

/-- The create branch of `add_or_search_question`: `abort(422)` unless
all four retrieved values are truthy (`if not all([...])`), otherwise
build and insert the new question row. -/
def add_question (s : Store) (p : PostPayload) : Outcome PostResponse × Store :=
  if ¬ (optTruthy p.question && optTruthy p.answer &&
        optTruthy p.difficulty && optTruthy p.category) then
    (.unprocessable, s)
  else
    match p.question, p.answer, p.difficulty, p.category with
    | some qv, some av, some dv, some cv =>
      (.ok .created,
       { s with questions := s.questions ++ [insertedQuestion s qv av dv cv] })
    | _, _, _, _ => (.unprocessable, s)

/-- The `POST /questions` handler `add_or_search_question`:
`search = payload.get('searchTerm', None)`; a truthy search term takes
the search branch, anything else (absent, empty, zero) the create
branch. -/
def add_or_search_question (s : Store) (p : PostPayload) :
    Outcome PostResponse × Store :=
  if optTruthy p.searchTerm then
    match p.searchTerm with
    | some v =>
      match search_questions s v.pyStr with
      | .ok r => (.ok (.searchResult r), s)
      | .notFound => (.notFound, s)
      | .unprocessable => (.unprocessable, s)
    | none => (.unprocessable, s)
  else add_question s p

/-- Payload of a successful `DELETE /questions/<id>` response. -/
structure DeleteResponse where
  id : Nat
deriving DecidableEq, Repr

/-- The `DELETE /questions/<id>` handler `remove_question`:
`Question.query.get_or_404(question_id)` aborts `404` when no row has
the id, otherwise the row is deleted and committed and the id echoed
back. -/
def remove_question (s : Store) (qid : Nat) :
    Outcome DeleteResponse × Store :=
  match s.questions.find? (fun q => q.id = qid) with
  | none => (.notFound, s)
  | some _ =>
    (.ok ⟨qid⟩,
     { s with questions := s.questions.eraseP (fun q => q.id = qid) })

/-- Payload of a successful `GET /categories/<id>/questions` response
(`currentCategory` is the category's `type` string). -/
structure CategoryResponse where
  questions : List Question
  totalQuestions : Nat
  currentCategory : String
deriving DecidableEq, Repr

/-- The `GET /categories/<id>/questions` handler
`get_questions_by_category`: `Category.query.get_or_404(category_id)`
aborts `404` for an unknown id, otherwise the questions whose `category`
column equals `str(category_id)` are returned with their count and the
category's type. -/
def get_questions_by_category (s : Store) (cid : Nat) :
    Outcome CategoryResponse :=
  match s.categories.find? (fun c => c.id = cid) with
  | none => .notFound
  | some cat =>
    let filtered := s.questions.filter (fun q => q.category = natRepr cid)
    .ok ⟨filtered, filtered.length, cat.type⟩

/-- Parsed body of a `POST /quizzes` request:
`data.get('previous_questions', [])` and
`data.get('quiz_category', {}).get('id', None)`. -/
structure QuizPayload where
  previous_questions : List Nat
  quiz_category_id : Option Value
deriving DecidableEq, Repr

/-- Payload of a (always successful) `POST /quizzes` response. -/
structure QuizResponse where
  question : Option Question
deriving DecidableEq, Repr

/-- The candidate list computed by `play_quiz`: when the selected
category is truthy and its `str` form is not `"0"`, questions of that
category not among the previous ids; otherwise all questions not among
the previous ids. -/
def quizCandidates (s : Store) (prev : List Nat) (cat : Option Value) :
    List Question :=
  match cat with
  | some c =>
    if c.truthy && c.pyStr ≠ "0" then
      s.questions.filter
        (fun q => q.category = c.pyStr && ¬ prev.contains q.id)
    else
      s.questions.filter (fun q => ¬ prev.contains q.id)
  | none => s.questions.filter (fun q => ¬ prev.contains q.id)

/-- The `POST /quizzes` handler `play_quiz`.  `random.choice` is modelled
by the extra index `pick`: the handler returns `available[pick mod
length]`, so every theorem below holds for whatever element the random
source selects.  An empty candidate list answers `200` with
`question: None`. -/
def play_quiz (s : Store) (p : QuizPayload) (pick : Nat) :
    Outcome QuizResponse :=
  match quizCandidates s p.previous_questions p.quiz_category_id with
  | [] => .ok ⟨none⟩
  | x :: xs =>
    .ok ⟨some ((x :: xs).get ⟨pick % (x :: xs).length,
                              Nat.mod_lt _ (Nat.succ_pos _)⟩)⟩

/-- Case-insensitive "starts with" on character lists: the spec-side
notion used to characterise `ilike` matching. -/
def startsWithCI : List Char → List Char → Bool
  | [], _ => true
  | _ :: _, [] => false
  | t :: ts, c :: cs => (t.toLower = c.toLower) && startsWithCI ts cs

/-- Case-insensitive "contains as contiguous substring" on character
lists. -/
def containsCI (t : List Char) : List Char → Bool
  | [] => startsWithCI t []
  | c :: cs => startsWithCI t (c :: cs) || containsCI t cs

/-- The spec's notion of search matching, written from its words: the
term "matches case-insensitively against the question text as a
substring ... a literal substring test". -/
def literalSubstringCI (term s : String) : Bool :=
  containsCI term.toList s.toList

/-- A simple concrete question used by witnesses and counterexamples. -/
def qq (i : Nat) : Question :=
  ⟨i, "q", "a", "1", 1⟩

/-- A concrete store holding `n` questions with ids `1..n` and no
categories. -/
def storeN (n : Nat) : Store :=
  ⟨(List.range n).map (fun i => qq (i + 1)), []⟩

/-- The validation condition claim C3 states, written from its words: a
creation field is rejected iff it is missing or empty (the empty
string); integers have no empty form. -/
def missingOrEmpty : Option Value → Bool
  | none => true
  | some (.str s) => s = ""
  | some (.int _) => false

/-- A concrete store for quiz witnesses: three questions of category
`"3"` and the matching category row. -/
def quizStore : Store :=
  ⟨[⟨1, "q", "a", "3", 1⟩, ⟨2, "q", "a", "3", 1⟩, ⟨3, "q", "a", "3", 1⟩],
   [⟨3, "Geography"⟩]⟩

theorem insertById_perm (q : Question) (l : List Question) :
    (insertById q l).Perm (q :: l) := by
  induction l with
  | nil => exact List.Perm.refl _
  | cons x xs ih =>
    simp only [insertById]
    split
    · exact List.Perm.refl _
    · exact (ih.cons x).trans (List.Perm.swap q x xs)

theorem sortByIdAsc_perm (l : List Question) :
    (sortByIdAsc l).Perm l := by
  induction l with
  | nil => exact List.Perm.refl _
  | cons x xs ih =>
    exact (insertById_perm x (sortByIdAsc xs)).trans (ih.cons x)

theorem sortByIdAsc_length (l : List Question) :
    (sortByIdAsc l).length = l.length :=
  (sortByIdAsc_perm l).length_eq

theorem insertById_pairwise (q : Question) (l : List Question)
    (h : l.Pairwise (fun a b => a.id ≤ b.id)) :
    (insertById q l).Pairwise (fun a b => a.id ≤ b.id) := by
  induction l with
  | nil => simp [insertById]
  | cons x xs ih =>
    rw [List.pairwise_cons] at h
    simp only [insertById]
    split
    · rename_i hqx
      refine List.pairwise_cons.mpr ⟨?_, List.pairwise_cons.mpr h⟩
      intro b hb
      rcases List.mem_cons.mp hb with rfl | hb
      · exact hqx
      · exact le_trans hqx (h.1 b hb)
    · rename_i hqx
      refine List.pairwise_cons.mpr ⟨?_, ih h.2⟩
      intro b hb
      rcases List.mem_cons.mp ((insertById_perm q xs).mem_iff.mp hb) with rfl | hb
      · omega
      · exact h.1 b hb

theorem sortByIdAsc_pairwise (l : List Question) :
    (sortByIdAsc l).Pairwise (fun a b => a.id ≤ b.id) := by
  induction l with
  | nil => simp [sortByIdAsc]
  | cons x xs ih => exact insertById_pairwise x _ ih

theorem take_min_drop {α : Type} (l : List α) (a k : Nat) :
    (l.take (min (a + k) l.length)).drop (min a l.length) =
      (l.drop a).take k := by
  rcases Nat.le_total a l.length with h | h
  · rw [Nat.min_eq_left h]
    rcases Nat.le_total (a + k) l.length with h2 | h2
    · rw [Nat.min_eq_left h2, List.take_drop]
    · rw [Nat.min_eq_right h2, List.take_length]
      have hlen : (l.drop a).length ≤ k := by
        simp only [List.length_drop]; omega
      rw [List.take_of_length_le hlen]
  · rw [Nat.min_eq_right h, Nat.min_eq_right (le_trans h (Nat.le_add_right a k)),
        List.take_length, List.drop_length,
        List.drop_eq_nil_iff.mpr h, List.take_nil]

theorem pySlice_eq {α : Type} (l : List α) (a : Int) (k : Nat) (ha : 0 ≤ a) :
    pySlice l a (a + k) = (l.drop a.toNat).take k := by
  unfold pySlice pyIdx
  have h1 : ¬ (a < 0) := by omega
  have h2 : ¬ (a + (k : Int) < 0) := by omega
  have h3 : (a + (k : Int)).toNat = a.toNat + k := by omega
  have h4 : ((l.length : Int)).toNat = l.length := by omega
  simp only [if_neg h1, if_neg h2, h3, h4]
  exact take_min_drop l a.toNat k

theorem get_questions_eq (s : Store) (page : Int) :
    get_questions s page =
      if pySlice (sortByIdAsc s.questions) ((page - 1) * 10) (page * 10) = []
      then .notFound
      else .ok ⟨pySlice (sortByIdAsc s.questions) ((page - 1) * 10) (page * 10),
                (sortByIdAsc s.questions).length, categoriesDict s, none⟩ := by
  simp only [get_questions, QUESTIONS_PER_PAGE, Nat.cast_ofNat]

/-- C1 (amended): for every page number `p ≥ 1` the list-questions
operation returns exactly the items in index range `[(p-1)*10, p*10)` of
the sequence of all questions ordered by id ascending, and yields
`NotFound` exactly when that slice is empty; page `0` always yields
`NotFound`; and no successful response ever carries an empty page.  (The
original claim further asserted that every `p ≤ 0` yields `NotFound`;
the counterexample shows a negative page can succeed via Python's
negative-index slicing.) -/
theorem get_questions_page_semantics (s : Store) (p : Int) (hp : 1 ≤ p) :
    ((sortByIdAsc s.questions).Perm s.questions ∧
     (sortByIdAsc s.questions).Pairwise (fun a b => a.id ≤ b.id)) ∧
    (get_questions s p = .notFound ↔
       ((sortByIdAsc s.questions).drop (((p - 1) * 10).toNat)).take 10 = []) ∧
    (((sortByIdAsc s.questions).drop (((p - 1) * 10).toNat)).take 10 ≠ [] →
       get_questions s p =
         .ok ⟨((sortByIdAsc s.questions).drop (((p - 1) * 10).toNat)).take 10,
              s.questions.length, categoriesDict s, none⟩) ∧
    (get_questions s 0 = .notFound) ∧
    (∀ (pg : Int) (r : ListResponse), get_questions s pg = .ok r →
       r.questions ≠ []) := by
  have key : pySlice (sortByIdAsc s.questions) ((p - 1) * 10) (p * 10) =
      ((sortByIdAsc s.questions).drop (((p - 1) * 10).toNat)).take 10 := by
    have e1 : (p * 10 : Int) = (p - 1) * 10 + ((10 : Nat) : Int) := by
      push_cast; ring
    rw [e1]
    exact pySlice_eq _ _ 10 (by omega)
  refine ⟨⟨sortByIdAsc_perm s.questions, sortByIdAsc_pairwise s.questions⟩,
    ?_, ?_, ?_, ?_⟩
  · rw [get_questions_eq, key]
    by_cases hsl :
        ((sortByIdAsc s.questions).drop (((p - 1) * 10).toNat)).take 10 = []
    · simp [hsl]
    · simp [hsl]
  · intro hne
    rw [get_questions_eq, key, if_neg hne, sortByIdAsc_length]
  · rw [get_questions_eq]
    norm_num [pySlice, pyIdx]
  · intro pg r h
    rw [get_questions_eq] at h
    split at h
    · exact absurd h (by simp)
    · rename_i hne
      cases h
      simpa using hne

/-- C1 witness: in a store of 11 questions, page 2 succeeds with the
single eleventh question and the full total. -/
theorem get_questions_page_semantics_witness :
    get_questions (storeN 11) 2 = .ok ⟨[qq 11], 11, [], none⟩ := by
  have h := (get_questions_page_semantics (storeN 11) 2 (by norm_num)).2.2.1
    (by decide)
  rw [h]
  decide

/-- C1 counterexample: page `-1` is `≤ 0`, yet with 11 stored questions
the handler answers success with a non-empty page (Python resolves the
slice `[-20:-10]` to the first question), not `NotFound` as the claim
requires for every `p ≤ 0`. -/
theorem get_questions_negative_page_counterexample :
    ((-1 : Int) ≤ 0) ∧
    get_questions (storeN 11) (-1) = .ok ⟨[qq 1], 11, [], none⟩ :=
  ⟨by norm_num, by decide⟩

theorem likeMatch_percent_all (s : List Char) : likeMatch ['%'] s = true := by
  induction s with
  | nil => simp [likeMatch]
  | cons c cs ih => simp [likeMatch, ih]

theorem likeMatch_append_percent (t : List Char)
    (hw : ∀ c ∈ t, c ≠ '%' ∧ c ≠ '_') (s : List Char) :
    likeMatch (t ++ ['%']) s = startsWithCI t s := by
  induction t generalizing s with
  | nil =>
    simp only [List.nil_append, startsWithCI]
    exact likeMatch_percent_all s
  | cons a ts ih =>
    have ha := hw a (List.mem_cons_self a ts)
    have hts : ∀ c ∈ ts, c ≠ '%' ∧ c ≠ '_' :=
      fun c hc => hw c (List.mem_cons_of_mem a hc)
    cases s with
    | nil => simp [likeMatch, startsWithCI, ha.1]
    | cons c cs =>
      simp [likeMatch, startsWithCI, ha.1, ha.2, ih hts]

theorem likeMatch_ilikePattern (t : List Char)
    (hw : ∀ c ∈ t, c ≠ '%' ∧ c ≠ '_') (s : List Char) :
    likeMatch ('%' :: (t ++ ['%'])) s = containsCI t s := by
  induction s with
  | nil =>
    simp [likeMatch, containsCI, likeMatch_append_percent t hw]
  | cons c cs ih =>
    simp [likeMatch, containsCI, likeMatch_append_percent t hw, ih]

theorem startsWithCI_iff (t : List Char) (s : List Char) :
    startsWithCI t s = true ↔
      (t.map Char.toLower) <+: (s.map Char.toLower) := by
  induction t generalizing s with
  | nil => simp [startsWithCI]
  | cons a ts ih =>
    cases s with
    | nil => simp [startsWithCI]
    | cons c cs => simp [startsWithCI, List.cons_prefix_cons, ih]

theorem containsCI_iff (t : List Char) (s : List Char) :
    containsCI t s = true ↔
      (t.map Char.toLower) <:+: (s.map Char.toLower) := by
  induction s with
  | nil => simp [containsCI, startsWithCI_iff]
  | cons c cs ih =>
    simp [containsCI, startsWithCI_iff, ih, List.infix_cons_iff]

theorem search_questions_eq (s : Store) (term : String) :
    search_questions s term =
      if s.questions.filter
           (fun q => likeMatch (ilikePattern term) q.question.toList) = []
      then .notFound
      else .ok ⟨s.questions.filter
                  (fun q => likeMatch (ilikePattern term) q.question.toList),
                (s.questions.filter
                  (fun q => likeMatch (ilikePattern term) q.question.toList)).length,
                none⟩ := rfl

/-- C2 counterexample: searching for `"_"` (a SQL `LIKE` wildcard the
code does not escape) matches the stored question `"abc"` and the
request succeeds with it, although `"_"` is not a literal substring of
`"abc"` — so the search does not return exactly the questions containing
the term as a literal substring. -/
theorem search_questions_wildcard_counterexample :
    search_questions ⟨[⟨1, "abc", "a", "1", 1⟩], []⟩ "_" =
      .ok ⟨[⟨1, "abc", "a", "1", 1⟩], 1, none⟩ ∧
    literalSubstringCI "_" "abc" = false := by
  constructor
  · simp [search_questions, likeMatch, ilikePattern]
  · decide

/-- C2 (amended): for every search term containing no SQL `LIKE`
wildcard (`%` or `_`), the search returns exactly the stored questions
whose question text contains the term as a literal substring compared
case-insensitively and unanchored (equivalently: the lower-cased term is
an infix of the lower-cased text), and yields `NotFound` exactly when
zero records match.  (The original claim asserted literal-substring
semantics for every term; since the code interpolates the term into the
`ilike` pattern unescaped, `%` and `_` act as wildcards, as the
counterexample shows.) -/
theorem search_questions_substring (s : Store) (term : String)
    (hw : ∀ c ∈ term.toList, c ≠ '%' ∧ c ≠ '_') :
    (∀ r, search_questions s term = .ok r →
       r.questions = s.questions.filter
         (fun q => literalSubstringCI term q.question) ∧
       r.totalQuestions = r.questions.length ∧
       r.questions ≠ []) ∧
    (search_questions s term = .notFound ↔
       s.questions.filter (fun q => literalSubstringCI term q.question) = []) ∧
    (∀ str : String, literalSubstringCI term str = true ↔
       (term.toList.map Char.toLower) <:+: (str.toList.map Char.toLower)) := by
  have hfilter :
      s.questions.filter
        (fun q => likeMatch (ilikePattern term) q.question.toList) =
      s.questions.filter (fun q => literalSubstringCI term q.question) := by
    apply List.filter_congr
    intro q _
    simp only [ilikePattern, literalSubstringCI]
    exact likeMatch_ilikePattern term.toList hw q.question.toList
  refine ⟨?_, ?_, fun str => containsCI_iff term.toList str.toList⟩
  · intro r h
    rw [search_questions_eq, hfilter] at h
    split at h
    · exact absurd h (by simp)
    · rename_i hne
      cases h
      exact ⟨rfl, rfl, hne⟩
  · rw [search_questions_eq, hfilter]
    split
    · rename_i he
      simp [he]
    · rename_i hne
      simp [hne]

/-- C2 witness: in a store holding `"Jupiter is a PLANET"`, searching
`"plan"` (wildcard-free) does not yield `NotFound`. -/
theorem search_questions_substring_witness :
    search_questions ⟨[⟨1, "Jupiter is a PLANET", "a", "1", 1⟩], []⟩ "plan" ≠
      .notFound := by
  have h := (search_questions_substring
    ⟨[⟨1, "Jupiter is a PLANET", "a", "1", 1⟩], []⟩ "plan" (by decide)).2.1
  intro hc
  have he := h.mp hc
  revert he
  decide

theorem le_foldr_max (l : List Nat) : ∀ x ∈ l, x ≤ l.foldr max 0 := by
  induction l with
  | nil => simp
  | cons y ys ih =>
    intro x hx
    rcases List.mem_cons.mp hx with rfl | hx
    · exact Nat.le_max_left _ _
    · exact le_trans (ih x hx) (Nat.le_max_right _ _)

theorem id_lt_nextId (s : Store) : ∀ q ∈ s.questions, q.id < nextId s := by
  intro q hq
  have := le_foldr_max (s.questions.map Question.id) q.id
    (List.mem_map_of_mem Question.id hq)
  unfold nextId
  omega

/-- C3 counterexample: a payload whose four creation fields are all
present and none of which is missing or the empty string — `difficulty`
is the integer `0` — is still rejected with the ValidationError outcome,
because the code tests Python truthiness (`if not all([...])`) and `0`
is falsy. -/
theorem add_question_zero_difficulty_counterexample :
    (add_or_search_question ⟨[], []⟩
       ⟨none, some (.str "a"), some (.str "b"),
        some (.int 0), some (.int 1)⟩).1 = .unprocessable ∧
    missingOrEmpty (some (.str "a")) = false ∧
    missingOrEmpty (some (.str "b")) = false ∧
    missingOrEmpty (some (.int 0)) = false ∧
    missingOrEmpty (some (.int 1)) = false := by
  decide

/-- C3 (amended): with no truthy search term in the payload, the create
operation fails with ValidationError if and only if at least one of the
four fields `question`, `answer`, `difficulty`, `category` is missing or
Python-falsy (the empty string, or the integer `0` — so a present
`difficulty = 0` is also rejected); whenever all four are present and
truthy the operation succeeds and appends a record carrying those field
values (the category in its textual form) whose id was not previously
present in the store. -/
theorem add_question_validation (s : Store) (p : PostPayload)
    (hst : optTruthy p.searchTerm = false) :
    ((add_or_search_question s p).1 = .unprocessable ↔
       (optTruthy p.question && optTruthy p.answer &&
        optTruthy p.difficulty && optTruthy p.category) = false) ∧
    (∀ qv av dv cv, p.question = some qv → p.answer = some av →
       p.difficulty = some dv → p.category = some cv →
       qv.truthy = true → av.truthy = true →
       dv.truthy = true → cv.truthy = true →
       add_or_search_question s p =
         (.ok .created,
          ⟨s.questions ++ [insertedQuestion s qv av dv cv], s.categories⟩) ∧
       (∀ q ∈ s.questions, q.id ≠ (insertedQuestion s qv av dv cv).id) ∧
       (insertedQuestion s qv av dv cv).question = qv.pyStr ∧
       (insertedQuestion s qv av dv cv).answer = av.pyStr ∧
       (insertedQuestion s qv av dv cv).category = storedCategory cv ∧
       (s.questions ++ [insertedQuestion s qv av dv cv]).length =
         s.questions.length + 1) := by
  obtain ⟨st, oq, oa, od, oc⟩ := p
  simp only at hst
  have hdisp : add_or_search_question s ⟨st, oq, oa, od, oc⟩ =
      add_question s ⟨st, oq, oa, od, oc⟩ := by
    simp [add_or_search_question, hst]
  constructor
  · rw [hdisp]
    cases oq with
    | none => simp [add_question, optTruthy]
    | some qv =>
      cases oa with
      | none => simp [add_question, optTruthy]
      | some av =>
        cases od with
        | none => simp [add_question, optTruthy]
        | some dv =>
          cases oc with
          | none => simp [add_question, optTruthy]
          | some cv =>
            simp only [add_question, optTruthy]
            split
            · rename_i h
              simp only [Bool.not_eq_true] at h
              simp [h]
            · rename_i h
              simp only [Bool.not_eq_true, not_not] at h
              simp [h]
  · intro qv av dv cv hq ha hd hcv hqt hat hdt hct
    subst hq; subst ha; subst hd; subst hcv
    refine ⟨?_, ?_, rfl, rfl, rfl, by simp⟩
    · rw [hdisp]
      simp [add_question, optTruthy, hqt, hat, hdt, hct]
    · intro q hqmem
      have := id_lt_nextId s q hqmem
      simp only [insertedQuestion]
      omega

/-- C3 witness: a fully-populated, truthy creation payload succeeds and
appends the new record to the store. -/
theorem add_question_validation_witness :
    add_or_search_question (storeN 1)
      ⟨none, some (.str "What is the largest planet?"), some (.str "Jupiter"),
       some (.int 2), some (.int 1)⟩ =
      (.ok .created,
       ⟨(storeN 1).questions ++
          [insertedQuestion (storeN 1) (.str "What is the largest planet?")
             (.str "Jupiter") (.int 2) (.int 1)],
        (storeN 1).categories⟩) :=
  ((add_question_validation (storeN 1)
      ⟨none, some (.str "What is the largest planet?"), some (.str "Jupiter"),
       some (.int 2), some (.int 1)⟩ (by decide)).2 _ _ _ _ rfl rfl rfl rfl
    (by decide) (by decide) (by decide) (by decide)).1

theorem digitChar_ne_zero {n : Nat} (h : n ≠ 0) : Nat.digitChar n ≠ '0' := by
  rcases Nat.lt_or_ge n 16 with h16 | h16
  · interval_cases n <;> first | (exact absurd rfl h) | decide
  · have hstar : Nat.digitChar n = '*' := by
      have e0 : n ≠ 0 := by omega
      have e1 : n ≠ 1 := by omega
      have e2 : n ≠ 2 := by omega
      have e3 : n ≠ 3 := by omega
      have e4 : n ≠ 4 := by omega
      have e5 : n ≠ 5 := by omega
      have e6 : n ≠ 6 := by omega
      have e7 : n ≠ 7 := by omega
      have e8 : n ≠ 8 := by omega
      have e9 : n ≠ 9 := by omega
      have ea : n ≠ 10 := by omega
      have eb : n ≠ 11 := by omega
      have ec : n ≠ 12 := by omega
      have ed : n ≠ 13 := by omega
      have ee : n ≠ 14 := by omega
      have ef : n ≠ 15 := by omega
      simp [Nat.digitChar, e0, e1, e2, e3, e4, e5, e6, e7, e8, e9,
            ea, eb, ec, ed, ee, ef]
    rw [hstar]
    decide

theorem natDigitsGo_ne_nil (f n : Nat) : natDigitsGo f n ≠ [] := by
  cases f with
  | zero => simp [natDigitsGo]
  | succ f =>
    simp only [natDigitsGo]
    split
    · simp
    · simp

theorem natDigitsGo_ne_zero_list (f n : Nat) (h : n ≠ 0) :
    natDigitsGo f n ≠ ['0'] := by
  cases f with
  | zero =>
    simp only [natDigitsGo]
    intro hc
    exact digitChar_ne_zero h (by injection hc)
  | succ f =>
    simp only [natDigitsGo]
    split
    · intro hc
      exact digitChar_ne_zero h (by injection hc)
    · intro hc
      have hlen := congrArg List.length hc
      simp only [List.length_append, List.length_cons, List.length_nil,
        List.length_singleton] at hlen
      have hl : (natDigitsGo f (n / 10)).length = 0 := by omega
      exact natDigitsGo_ne_nil f (n / 10) (List.length_eq_zero.mp hl)

theorem natRepr_ne_zero (n : Nat) (h : n ≠ 0) : natRepr n ≠ "0" := by
  unfold natRepr
  intro hc
  have hdata : natDigitsGo n n = ['0'] := by
    simpa using congrArg String.data hc
  exact natDigitsGo_ne_zero_list n n h hdata

theorem pyStr_int_ne_zero (c : Int) (h : c ≠ 0) : (Value.int c).pyStr ≠ "0" := by
  simp only [Value.pyStr]
  split
  · rename_i hneg
    intro hc
    have h2 : ("-".data ++ (natRepr (-c).toNat).data) = "0".data := by
      rw [← String.data_append, hc]
    rw [show "-".data = ['-'] from rfl, show "0".data = ['0'] from rfl] at h2
    have h3 : (natRepr (-c).toNat).data = [] := by
      have := congrArg List.length h2
      simp at this
      exact List.length_eq_zero.mp this
    have h4 := congrArg List.head? h2
    simp at h4
  · rename_i hpos
    exact natRepr_ne_zero c.toNat (by omega)

theorem play_quiz_eq (s : Store) (p : QuizPayload) (pick : Nat) :
    play_quiz s p pick =
      .ok ⟨(quizCandidates s p.previous_questions p.quiz_category_id).get?
             (pick %
              (quizCandidates s p.previous_questions p.quiz_category_id).length)⟩ := by
  unfold play_quiz
  split
  · rename_i heq
    rw [heq]
    rfl
  · rename_i x xs heq
    rw [heq]
    have hlt : pick % (x :: xs).length < (x :: xs).length :=
      Nat.mod_lt _ (Nat.succ_pos _)
    rw [List.get?_eq_get hlt]

theorem quizCandidates_mem {s : Store} {prev : List Nat} {cat : Option Value}
    {q : Question} (h : q ∈ quizCandidates s prev cat) :
    q ∈ s.questions ∧ q.id ∉ prev := by
  rcases cat with _ | c
  · dsimp only [quizCandidates] at h
    have := List.mem_filter.mp h
    simpa using this
  · dsimp only [quizCandidates] at h
    split at h
    · have := List.mem_filter.mp h
      refine ⟨this.1, ?_⟩
      have h2 := this.2
      simp only [Bool.and_eq_true] at h2
      simpa using h2.2
    · have := List.mem_filter.mp h
      simpa using this

/-- C4: every question returned by the quiz-next operation comes from
the candidate set: it is a stored question whose id is not among the
previous-question ids; when a category value is supplied that is truthy
and whose string form is not `"0"` — in particular any integer id
`c ≠ 0` — the question's stored category equals the string
representation of that id; and when the category is absent or the
sentinel `0`, the candidate set is the unrestricted one (all stored
questions minus the previous ids). -/
theorem play_quiz_candidate_membership (s : Store) (p : QuizPayload)
    (pick : Nat) (q : Question)
    (h : play_quiz s p pick = .ok ⟨some q⟩) :
    (q ∈ s.questions ∧ q.id ∉ p.previous_questions) ∧
    (∀ v, p.quiz_category_id = some v → v.truthy = true → v.pyStr ≠ "0" →
       q.category = v.pyStr) ∧
    (∀ c : Int, p.quiz_category_id = some (.int c) → c ≠ 0 →
       q.category = (Value.int c).pyStr) ∧
    ((p.quiz_category_id = none ∨ p.quiz_category_id = some (.int 0)) →
       quizCandidates s p.previous_questions p.quiz_category_id =
         s.questions.filter (fun x => ¬ p.previous_questions.contains x.id)) := by
  have hq : q ∈ quizCandidates s p.previous_questions p.quiz_category_id := by
    rw [play_quiz_eq] at h
    simp only [Outcome.ok.injEq, QuizResponse.mk.injEq] at h
    exact List.get?_mem h
  have hcat : ∀ v, p.quiz_category_id = some v → v.truthy = true →
      v.pyStr ≠ "0" → q.category = v.pyStr := by
    intro v hv ht hne
    rw [hv] at hq
    dsimp only [quizCandidates] at hq
    rw [if_pos (by simp [ht, hne])] at hq
    have := (List.mem_filter.mp hq).2
    simp only [Bool.and_eq_true, decide_eq_true_eq] at this
    exact this.1
  refine ⟨quizCandidates_mem hq, hcat, ?_, ?_⟩
  · intro c hv hc0
    exact hcat (.int c) hv (by simp [Value.truthy, hc0])
      (pyStr_int_ne_zero c hc0)
  · intro hv
    rcases hv with hv | hv <;> rw [hv] <;> dsimp only [quizCandidates]
    rw [if_neg (by simp [Value.truthy])]

/-- C4 witness: with previous ids `{1, 2}` and category id `3`, the
served question is stored and its id avoids the previous ones. -/
theorem play_quiz_candidate_membership_witness :
    (⟨3, "q", "a", "3", 1⟩ : Question) ∈ quizStore.questions ∧
    (⟨3, "q", "a", "3", 1⟩ : Question).id ∉
      (⟨[1, 2], some (.int 3)⟩ : QuizPayload).previous_questions :=
  (play_quiz_candidate_membership quizStore ⟨[1, 2], some (.int 3)⟩ 0
     ⟨3, "q", "a", "3", 1⟩ (by decide)).1

theorem quizCandidates_nil_of_all_prev {s : Store} {prev : List Nat}
    {cat : Option Value} (h : ∀ q ∈ s.questions, q.id ∈ prev) :
    quizCandidates s prev cat = [] := by
  rcases cat with _ | c
  · exact List.filter_eq_nil_iff.mpr (fun q hq => by simp [h q hq])
  · dsimp only [quizCandidates]
    split
    · exact List.filter_eq_nil_iff.mpr (fun q hq => by simp [h q hq])
    · exact List.filter_eq_nil_iff.mpr (fun q hq => by simp [h q hq])

/-- C5: the quiz-next operation always succeeds: for every store,
previous-id list, category value and random pick it returns a success
payload; when the candidate set is empty it returns success with
`question: none` — in particular when the previous ids cover all stored
questions, or, for a truthy non-`"0"` category, all stored questions of
that category — never `NotFound` or any other error. -/
theorem play_quiz_never_fails (s : Store) (p : QuizPayload) (pick : Nat) :
    (∃ r, play_quiz s p pick = .ok r) ∧
    (quizCandidates s p.previous_questions p.quiz_category_id = [] →
       play_quiz s p pick = .ok ⟨none⟩) ∧
    ((∀ q ∈ s.questions, q.id ∈ p.previous_questions) →
       play_quiz s p pick = .ok ⟨none⟩) ∧
    (∀ v, p.quiz_category_id = some v → v.truthy = true → v.pyStr ≠ "0" →
       (∀ q ∈ s.questions, q.category = v.pyStr →
          q.id ∈ p.previous_questions) →
       play_quiz s p pick = .ok ⟨none⟩) := by
  have hnil :
      quizCandidates s p.previous_questions p.quiz_category_id = [] →
      play_quiz s p pick = .ok ⟨none⟩ := by
    intro hc
    rw [play_quiz_eq, hc]
    rfl
  refine ⟨⟨_, play_quiz_eq s p pick⟩, hnil,
    fun h => hnil (quizCandidates_nil_of_all_prev h), ?_⟩
  intro v hv ht hne hall
  apply hnil
  rw [hv]
  dsimp only [quizCandidates]
  rw [if_pos (by simp [ht, hne])]
  refine List.filter_eq_nil_iff.mpr ?_
  intro q hqmem
  by_cases hc : q.category = v.pyStr
  · simp [hc, hall q hqmem hc]
  · simp [hc]

/-- C5 witness: when the previous ids cover every stored question, the
quiz answers success with `question: none`. -/
theorem play_quiz_never_fails_witness :
    play_quiz quizStore ⟨[1, 2, 3], some (.int 3)⟩ 7 = .ok ⟨none⟩ :=
  (play_quiz_never_fails quizStore ⟨[1, 2, 3], some (.int 3)⟩ 7).2.2.1
    (by decide)

/-- C6: the list-by-category operation answers `NotFound` exactly for
category ids absent from the catalog; for a present id it succeeds with
exactly the questions whose stored category reference equals the string
representation of the integer id, their count, and the category's type
string as `currentCategory`. -/
theorem get_questions_by_category_semantics (s : Store) (cid : Nat) :
    (s.categories.find? (fun c => c.id = cid) = none ↔
       ∀ c ∈ s.categories, c.id ≠ cid) ∧
    (s.categories.find? (fun c => c.id = cid) = none →
       get_questions_by_category s cid = .notFound) ∧
    (∀ cat, s.categories.find? (fun c => c.id = cid) = some cat →
       cat ∈ s.categories ∧ cat.id = cid ∧
       get_questions_by_category s cid =
         .ok ⟨s.questions.filter (fun q => q.category = natRepr cid),
              (s.questions.filter (fun q => q.category = natRepr cid)).length,
              cat.type⟩) := by
  refine ⟨?_, ?_, ?_⟩
  · rw [List.find?_eq_none]
    simp
  · intro h
    simp [get_questions_by_category, h]
  · intro cat h
    refine ⟨List.mem_of_find?_eq_some h, by simpa using List.find?_some h, ?_⟩
    simp [get_questions_by_category, h]

/-- C6 witness: category id 3 is in the catalog, so listing it succeeds
with the category-`"3"` questions and `currentCategory` `"Geography"`. -/
theorem get_questions_by_category_semantics_witness :
    get_questions_by_category quizStore 3 =
      .ok ⟨quizStore.questions.filter (fun q => q.category = natRepr 3),
           (quizStore.questions.filter
             (fun q => q.category = natRepr 3)).length,
           "Geography"⟩ :=
  ((get_questions_by_category_semantics quizStore 3).2.2 ⟨3, "Geography"⟩
    (by decide)).2.2

/-- C7: the delete-question operation answers `NotFound`, leaving the
store unchanged, if and only if no stored record has the given id; when
a record with that id exists the operation succeeds echoing the id, the
resulting store no longer contains any record with that id, holds one
record fewer, and holds only records that were already present. -/
theorem remove_question_semantics (s : Store) (qid : Nat)
    (hnodup : (s.questions.map Question.id).Nodup) :
    ((∀ q ∈ s.questions, q.id ≠ qid) →
       remove_question s qid = (.notFound, s)) ∧
    ((remove_question s qid).1 = .notFound ↔
       ∀ q ∈ s.questions, q.id ≠ qid) ∧
    ((∃ q ∈ s.questions, q.id = qid) →
       (remove_question s qid).1 = .ok ⟨qid⟩ ∧
       (∀ q ∈ (remove_question s qid).2.questions, q.id ≠ qid) ∧
       (remove_question s qid).2.questions.length + 1 =
         s.questions.length ∧
       ∀ q ∈ (remove_question s qid).2.questions, q ∈ s.questions) := by
  have hnf : (∀ q ∈ s.questions, q.id ≠ qid) →
      remove_question s qid = (.notFound, s) := by
    intro h
    have hfind : s.questions.find? (fun q => q.id = qid) = none :=
      List.find?_eq_none.mpr (fun q hq => by simp [h q hq])
    simp [remove_question, hfind]
  refine ⟨hnf, ?_, ?_⟩
  · constructor
    · intro h1
      by_contra hex
      push_neg at hex
      obtain ⟨q0, hq0mem, hq0id⟩ := hex
      cases hfind : s.questions.find? (fun q => q.id = qid) with
      | none =>
        have := List.find?_eq_none.mp hfind q0 hq0mem
        simp [hq0id] at this
      | some q1 =>
        simp [remove_question, hfind] at h1
    · intro h
      rw [hnf h]
  · intro hex
    obtain ⟨q0, hq0mem, hq0id⟩ := hex
    have hp : (fun q => decide (q.id = qid)) q0 = true := by simp [hq0id]
    cases hfind : s.questions.find? (fun q => q.id = qid) with
    | none =>
      have := List.find?_eq_none.mp hfind q0 hq0mem
      simp [hq0id] at this
    | some q1 =>
      obtain ⟨a, l₁, l₂, hl₁, hpa, hdecomp, herase⟩ :=
        @List.exists_of_eraseP Question (fun q => decide (q.id = qid))
          s.questions q0 hq0mem hp
      have hres : remove_question s qid =
          (.ok ⟨qid⟩,
           ⟨s.questions.eraseP (fun q => q.id = qid), s.categories⟩) := by
        simp [remove_question, hfind]
      rw [hres]
      have haid : a.id = qid := by simpa using hpa
      refine ⟨rfl, ?_, ?_, ?_⟩
      · intro q hq
        rw [herase] at hq
        rcases List.mem_append.mp hq with h1 | h2
        · have := hl₁ q h1
          simpa using this
        · have hmapnd := hnodup
          rw [hdecomp] at hmapnd
          simp only [List.map_append, List.map_cons] at hmapnd
          have h3 := (List.nodup_append.mp hmapnd).2.1
          have h4 := List.nodup_cons.mp h3
          intro hqid
          exact h4.1 (by
            rw [← haid] at hqid
            exact hqid ▸ List.mem_map_of_mem Question.id h2)
      · rw [herase, hdecomp]
        simp only [List.length_append, List.length_cons]
        omega
      · intro q hq
        rw [herase] at hq
        rw [hdecomp]
        rcases List.mem_append.mp hq with h1 | h2
        · exact List.mem_append.mpr (Or.inl h1)
        · exact List.mem_append.mpr (Or.inr (List.mem_cons_of_mem a h2))

/-- C7 witness: deleting id 2 from a store of ids `{1, 2, 3}`
succeeds and echoes the id. -/
theorem remove_question_semantics_witness :
    (remove_question (storeN 3) 2).1 = .ok ⟨2⟩ :=
  ((remove_question_semantics (storeN 3) 2 (by decide)).2.2
    ⟨qq 2, by decide, by decide⟩).1

theorem containsCI_nil (s : List Char) : containsCI [] s = true := by
  cases s with
  | nil => rfl
  | cons c cs => simp [containsCI, startsWithCI]

/-- C8: a POST whose `searchTerm` is present but the empty string is
dispatched to the create branch (only a truthy term triggers search),
so with the creation fields absent the request yields the
ValidationError outcome — even though the empty string is a substring of
every question text, so the search branch would have matched
everything. -/
theorem empty_search_term_dispatch (s : Store) (p : PostPayload)
    (hst : p.searchTerm = some (.str "")) :
    add_or_search_question s p = add_question s p ∧
    (p.question = none → p.answer = none → p.difficulty = none →
     p.category = none →
       add_or_search_question s p = (.unprocessable, s)) ∧
    (∀ str : String, literalSubstringCI "" str = true) := by
  have h1 : add_or_search_question s p = add_question s p := by
    simp [add_or_search_question, hst, optTruthy, Value.truthy]
  refine ⟨h1, ?_, fun str => containsCI_nil str.toList⟩
  intro hq ha hd hc
  rw [h1]
  simp [add_question, hq, ha, hd, hc, optTruthy]

/-- C8 witness: a payload carrying only `searchTerm = ""` is rejected
with the ValidationError outcome. -/
theorem empty_search_term_dispatch_witness :
    add_or_search_question (storeN 1)
      ⟨some (.str ""), none, none, none, none⟩ = (.unprocessable, storeN 1) :=
  (empty_search_term_dispatch (storeN 1)
    ⟨some (.str ""), none, none, none, none⟩ rfl).2.1 rfl rfl rfl rfl

/-- C9: `totalQuestions` differs in meaning between operations: every
successful paginated list response reports the total number of stored
questions (whatever the page), whereas every successful search response
reports the number of matching questions (the length of the returned
match list). -/
theorem totalQuestions_semantics :
    (∀ (s : Store) (page : Int) (r : ListResponse),
       get_questions s page = .ok r →
       r.totalQuestions = s.questions.length) ∧
    (∀ (s : Store) (term : String) (r : SearchResponse),
       search_questions s term = .ok r →
       r.totalQuestions = r.questions.length ∧
       r.questions = s.questions.filter
         (fun q => likeMatch (ilikePattern term) q.question.toList)) := by
  constructor
  · intro s page r h
    rw [get_questions_eq] at h
    split at h
    · exact absurd h (by simp)
    · cases h
      exact sortByIdAsc_length s.questions
  · intro s term r h
    rw [search_questions_eq] at h
    split at h
    · exact absurd h (by simp)
    · cases h
      exact ⟨rfl, rfl⟩

/-- C9 witness: page 2 of a 12-question store carries 2 questions but
reports `totalQuestions = 12`, the full store size. -/
theorem totalQuestions_semantics_witness :
    (⟨[qq 11, qq 12], 12, [], none⟩ : ListResponse).totalQuestions =
      (storeN 12).questions.length :=
  totalQuestions_semantics.1 (storeN 12) 2 ⟨[qq 11, qq 12], 12, [], none⟩
    (by decide)

/-- C10: a category present in the catalog but with zero stored
questions yields a success with the empty list, `totalQuestions = 0`
and the category's type — never `NotFound`. -/
theorem get_questions_by_category_empty (s : Store) (cid : Nat)
    (cat : Category)
    (hfind : s.categories.find? (fun c => c.id = cid) = some cat)
    (hempty : ∀ q ∈ s.questions, q.category ≠ natRepr cid) :
    get_questions_by_category s cid = .ok ⟨[], 0, cat.type⟩ := by
  have hfil : s.questions.filter (fun q => q.category = natRepr cid) = [] :=
    List.filter_eq_nil_iff.mpr (fun q hq => by simp [hempty q hq])
  simp [get_questions_by_category, hfind, hfil]

/-- C10 witness: category 5 exists with no questions; listing it
answers success with an empty page and total `0`. -/
theorem get_questions_by_category_empty_witness :
    get_questions_by_category ⟨[], [⟨5, "Art"⟩]⟩ 5 = .ok ⟨[], 0, "Art"⟩ :=
  get_questions_by_category_empty ⟨[], [⟨5, "Art"⟩]⟩ 5 ⟨5, "Art"⟩
    (by decide) (by simp)
